import Mathlib

/-!
Verification development for the `teacher` repository (two Python files:
`src/app.py` and `src/generic-teacher.py`).

The repository is orchestration glue around an external chat-completion
endpoint: a tool-call resolution loop, two regex-based speech sanitizers,
a PDF content loader, fire-and-forget notifications, and TTS invocation.

Shallow embedding conventions:
- Python strings are Lean `String` / `List Char`; each `re.sub` call of the
  source is embedded as a recursive function implementing that particular
  pattern's leftmost, non-overlapping match-and-replace semantics
  (Python `\s` is modelled as ASCII whitespace, `\d` as ASCII digits).
- External collaborators (the chat endpoint, `json.loads`, `requests.post`,
  `PdfReader`, `gTTS`) are modelled at their interfaces: `json.loads` by the
  parse outcome of the payload, the filesystem by a function
  `String → Option (List (Option String))` (path to extracted page texts),
  the endpoint by a scripted list of responses, TTS by a
  `String → Option String` oracle.
- Python exceptions are `Except PyErr`.
-/

namespace Teacher

/-- Outcome-level model of Python exceptions raised by the embedded code. -/
inductive PyErr where
  /-- `json.JSONDecodeError` raised by `json.loads` on a malformed payload. -/
  | jsonDecodeError
  /-- `TypeError` (calling a non-callable, or bad keyword arguments). -/
  | typeError
  /-- An exception raised by `gTTS`/`tts.save` during audio synthesis. -/
  | ttsError
  /-- `requests.exceptions.ConnectionError` (or kin) raised by
  `requests.post` when the notification transport itself fails. -/
  | requestsConnectionError
  deriving DecidableEq, Repr

/--
Python values occurring in this program's tool plumbing: `None`, strings,
and flat string-valued dicts (the only dict shapes the sources produce:
`{}` and `{"recorded": "ok"}`, and the model-supplied argument objects,
which per the declared tool schemas are string-valued).
-/
inductive PyVal where
  | none
  | str (s : String)
  | dict (kv : List (String × String))
  deriving DecidableEq, Repr

/-- `json.dumps` on the values above (default separators `", "` and `": "`). -/
def jsonDumps : PyVal → String
  | PyVal.none => "null"
  | PyVal.str s => "\"" ++ s ++ "\""
  | PyVal.dict kv =>
      "\x7b" ++ String.intercalate ", "
        (kv.map (fun p => "\"" ++ p.1 ++ "\": \"" ++ p.2 ++ "\"")) ++ "\x7d"

/-- Python `str()` as used by f-string interpolation of these values. -/
def pyStr : PyVal → String
  | PyVal.none => "None"
  | PyVal.str s => s
  | PyVal.dict kv =>
      "\x7b" ++ String.intercalate ", "
        (kv.map (fun p => "'" ++ p.1 ++ "': '" ++ p.2 ++ "'")) ++ "\x7d"

/--
The `arguments` field of a model-emitted tool call, as consumed by
`json.loads` (an external library call, modelled by its outcome on the
payload): either a payload that parses to a JSON object, or a malformed one.
-/
inductive ArgsPayload where
  | parsed (kv : List (String × PyVal))
  | malformed (raw : String)
  deriving DecidableEq, Repr

/-- `json.loads` applied to a tool call's `arguments` string. -/
def json_loads : ArgsPayload → Except PyErr (List (String × PyVal))
  | ArgsPayload.parsed kv => Except.ok kv
  | ArgsPayload.malformed _ => Except.error PyErr.jsonDecodeError

/-- The `function` field of a model-emitted tool call. -/
structure ToolCallFunction where
  name : String
  arguments : ArgsPayload
  deriving DecidableEq, Repr

/-- A model-emitted `ToolInvocationRequest` (`tool_call` object). -/
structure ToolCall where
  id : String
  function : ToolCallFunction
  deriving DecidableEq, Repr

/--
The `ToolResult` dict appended by `handle_tool_call`:
`{"role": "tool", "content": json.dumps(result), "tool_call_id": tool_call.id}`.
-/
structure ToolMsg where
  role : String
  content : String
  tool_call_id : String
  deriving DecidableEq, Repr

/-- One entry of the conversation transcript (`messages` list). -/
inductive ChatMsg where
  | system (content : String)
  | user (content : String)
  | assistant (content : String)
  /-- The assistant message object carrying tool calls, appended verbatim. -/
  | assistantToolCalls (tool_calls : List ToolCall)
  | toolResult (m : ToolMsg)
  deriving DecidableEq, Repr

/-- One scripted response of the chat-completion endpoint (`choices[0]`). -/
structure ModelResponse where
  finish_reason : String
  content : String
  tool_calls : List ToolCall
  deriving DecidableEq, Repr

/-! ## Character classes used by the regex embeddings -/

/-- Python `\s` (ASCII range, as exercised by this program). -/
def isPySpace (c : Char) : Bool :=
  c = ' ' || c = '\t' || c = '\n' || c = '\r' || c = '\x0b' || c = '\x0c'

/-- The character class `[\"\'\[\]\(\)]` of `app.py`. -/
def isQuoteBracket (c : Char) : Bool :=
  c = '"' || c = '\'' || c = '[' || c = ']' || c = '(' || c = ')'

/-- Python `str.lower()` (ASCII, as exercised by the subject names). -/
def pyLower (s : String) : String := String.mk (s.data.map Char.toLower)

namespace App

/-!
Embedding of `src/app.py`.
-/

/--
First substitution of `app.py`'s `clean_text_for_audio`:
`re.sub(r'\*\*|__|~~|`, ...)` removing `**`, `__`, `~~` and backtick,
scanning left to right, non-overlapping.
-/
def subMarks : List Char → List Char
  | [] => []
  | c :: rest =>
    if c = '`' then subMarks rest
    else match rest with
      | [] => [c]
      | d :: rest' =>
        if (c = '*' && d = '*') || (c = '_' && d = '_') || (c = '~' && d = '~')
        then subMarks rest'
        else c :: subMarks (d :: rest')

/--
Third substitution, shared verbatim with `generic-teacher.py`:
`re.sub(r'\s{2,}', ' ', text)` replaces each maximal run of two or more
whitespace characters with one space. The flag is true while skipping the
remainder of a run that has already been replaced.
-/
def collapseGo : Bool → List Char → List Char
  | _, [] => []
  | true, c :: rest =>
    if isPySpace c then collapseGo true rest else c :: collapseGo false rest
  | false, [c] => [c]
  | false, c :: d :: rest =>
    if isPySpace c then
      if isPySpace d then ' ' :: collapseGo true rest
      else c :: collapseGo false (d :: rest)
    else c :: collapseGo false (d :: rest)

/-- `re.sub(r'\s{2,}', ' ', text)`. -/
def collapseWs (l : List Char) : List Char := collapseGo false l

/-- Drop trailing whitespace, the right half of Python `str.strip()`. -/
def dropTrailingWs : List Char → List Char
  | [] => []
  | c :: rest =>
    match dropTrailingWs rest with
    | [] => if isPySpace c then [] else [c]
    | d :: r => c :: d :: r

/-- Python `str.strip()`. -/
def pyStrip (l : List Char) : List Char :=
  dropTrailingWs (l.dropWhile isPySpace)

/--
`app.py`'s `clean_text_for_audio`:
removes markdown markers `**`/`__`/`~~`/backtick, removes quote and bracket
characters, collapses whitespace runs, and strips the ends.
-/
def clean_text_for_audio (text : String) : String :=
  String.mk (pyStrip (collapseWs
    ((subMarks text.data).filter (fun c => !(isQuoteBracket c)))))

end App

namespace Gen

/-!
Embedding of `src/generic-teacher.py`.
-/

/--
First substitution of `generic-teacher.py`'s `clean_text_for_audio`:
`re.sub(r'\*\*|\*|__|~~|`|–|-', ...)`. Single `*`, backtick, en dash and
hyphen are removed outright; `__` and `~~` only as pairs.
-/
def subMarks : List Char → List Char
  | [] => []
  | c :: rest =>
    if c = '*' || c = '`' || c = '–' || c = '-' then subMarks rest
    else match rest with
      | [] => [c]
      | d :: rest' =>
        if (c = '_' && d = '_') || (c = '~' && d = '~')
        then subMarks rest'
        else c :: subMarks (d :: rest')

/--
Scanner for `\([^()\n]+\)` after an opening parenthesis: requires at least
one character outside `()` and newline (handled by the caller splitting off
the first character), then returns the text after the closing parenthesis.
This is the continuation once one run character has been consumed.
-/
def parenAux : List Char → Option (List Char)
  | [] => Option.none
  | ')' :: rest => some rest
  | '(' :: _ => Option.none
  | '\n' :: _ => Option.none
  | _ :: rest => parenAux rest

/--
Given the text following `'('`, returns the text after the matching `')'`
when `\([^()\n]+\)` matches at that parenthesis (the `+` needs at least one
run character, and the run may not contain `(`, `)` or a newline).
-/
def parenTail : List Char → Option (List Char)
  | [] => Option.none
  | c :: rest =>
    if c = ')' || c = '(' || c = '\n' then Option.none
    else parenAux rest

/--
Second substitution: `re.sub(r'\([^()\n]+\)', '', text)` removing
parenthetical asides together with their content. Fueled to make the
left-to-right rescan structural; the wrapper passes enough fuel.
-/
def subParenF : Nat → List Char → List Char
  | 0, l => l
  | _ + 1, [] => []
  | fuel + 1, c :: rest =>
    if c = '(' then
      match parenTail rest with
      | some rest' => subParenF fuel rest'
      | Option.none => c :: subParenF fuel rest
    else c :: subParenF fuel rest

/-- `re.sub(r'\([^()\n]+\)', '', text)`. -/
def subParen (l : List Char) : List Char := subParenF (l.length + 1) l

/--
Match continuation for `(\d+\.\s*)([^\n]+)` after the digits and the dot:
`s` is the remaining text. Greedy `\s*` takes the maximal whitespace run;
if the next character exists and is not a newline, `[^\n]+` takes the
maximal non-newline run. Otherwise the engine backtracks `\s*` to the last
position inside the whitespace run holding a non-newline character.
Returns `(text standing for group1-tail ++ group2 ++ ".", remainder)`.
-/
def numTail (s : List Char) : Option (List Char × List Char) :=
  let w := s.takeWhile isPySpace
  let t := s.drop w.length
  match t with
  | c :: _ =>
    if c = '\n' then
      match w.reverse.dropWhile (fun d => d = '\n') with
      | [] => Option.none
      | e :: r =>
        let j := (e :: r).length - 1
        let g2 := (w.drop j).takeWhile (fun d => !(d = '\n'))
        some (w.take j ++ g2 ++ ['.'], ((w.drop j).drop g2.length) ++ t)
    else
      let g2 := t.takeWhile (fun d => !(d = '\n'))
      some (w ++ g2 ++ ['.'], t.drop g2.length)
  | [] =>
    match w.reverse.dropWhile (fun d => d = '\n') with
    | [] => Option.none
    | e :: r =>
      let j := (e :: r).length - 1
      let g2 := (w.drop j).takeWhile (fun d => !(d = '\n'))
      some (w.take j ++ g2 ++ ['.'], (w.drop j).drop g2.length)

/--
Third substitution: `re.sub(r'(\d+\.\s*)([^\n]+)', r'\1\2.', text)`,
appending a period after each numbered item. Fueled rescan.
-/
def subNumF : Nat → List Char → List Char
  | 0, l => l
  | _ + 1, [] => []
  | fuel + 1, c :: rest =>
    if c.isDigit then
      let ds := rest.takeWhile Char.isDigit
      match rest.drop ds.length with
      | '.' :: s =>
        match numTail s with
        | some (mid, rem) => c :: (ds ++ '.' :: (mid ++ subNumF fuel rem))
        | Option.none => c :: subNumF fuel rest
      | _ => c :: subNumF fuel rest
    else c :: subNumF fuel rest

/-- `re.sub(r'(\d+\.\s*)([^\n]+)', r'\1\2.', text)`. -/
def subNum (l : List Char) : List Char := subNumF (l.length + 1) l

/--
Fourth substitution: `re.sub(r'(English meaning:.*?)\n', r'\1. ', text)`.
Lazy `.*?` cannot cross a newline, so the group extends to the first
newline, which is replaced by `". "`. Fueled rescan.
-/
def subEngF : Nat → List Char → List Char
  | 0, l => l
  | _ + 1, [] => []
  | fuel + 1, c :: rest =>
    if List.isPrefixOf "English meaning:".data (c :: rest) then
      let s := (c :: rest).drop 16
      let run := s.takeWhile (fun d => !(d = '\n'))
      match s.drop run.length with
      | '\n' :: rem =>
        "English meaning:".data ++ run ++ '.' :: ' ' :: subEngF fuel rem
      | _ => c :: subEngF fuel rest
    else c :: subEngF fuel rest

/-- `re.sub(r'(English meaning:.*?)\n', r'\1. ', text)`. -/
def subEng (l : List Char) : List Char := subEngF (l.length + 1) l

/--
Fifth substitution: `re.sub(r'\n\s*[\*\-•]\s*', r'. ', text)`. After the
newline, greedy `\s*` takes the maximal whitespace run (backtracking cannot
help, as shorter runs end on whitespace, never on a bullet character), then
a bullet character, then the maximal whitespace run again. Fueled rescan.
-/
def subBulletF : Nat → List Char → List Char
  | 0, l => l
  | _ + 1, [] => []
  | fuel + 1, c :: rest =>
    if c = '\n' then
      let w := rest.takeWhile isPySpace
      match rest.drop w.length with
      | b :: r =>
        if b = '*' || b = '-' || b = '•' then
          let w2 := r.takeWhile isPySpace
          '.' :: ' ' :: subBulletF fuel (r.drop w2.length)
        else c :: subBulletF fuel rest
      | [] => c :: subBulletF fuel rest
    else c :: subBulletF fuel rest

/-- `re.sub(r'\n\s*[\*\-•]\s*', r'. ', text)`. -/
def subBullet (l : List Char) : List Char := subBulletF (l.length + 1) l

/--
`generic-teacher.py`'s `clean_text_for_audio`: the five substitutions above,
then whitespace-run collapsing, `text.replace('\n', ' ')` and `strip()`.
-/
def clean_text_for_audio (text : String) : String :=
  String.mk (App.pyStrip
    ((App.collapseWs (subBullet (subEng (subNum (subParen
        (subMarks text.data)))))).map (fun c => if c = '\n' then ' ' else c)))

end Gen

/-! ## Keyword-argument call semantics (Python `f(**arguments)`) -/

/-- Look up a keyword argument by name (first binding wins). -/
def kwLookup (kv : List (String × PyVal)) (k : String) : Option PyVal :=
  (kv.find? (fun p => p.1 = k)).map Prod.snd

/--
Whether a `f(**kv)` call binds every required parameter and passes no
unexpected keyword; a violation raises `TypeError` in Python.
-/
def kwValid (kv : List (String × PyVal)) (required optional : List String) : Bool :=
  required.all (fun r => kv.any (fun p => p.1 = r)) &&
    kv.all (fun p => required.contains p.1 || optional.contains p.1)

/--
Outcome of the `requests.post` call to the notification endpoint:
either an HTTP response (with some status — `requests.post` returns the
`Response` object for any status and raises nothing without
`raise_for_status`), or a transport-level failure, on which
`requests.post` itself raises (e.g. `ConnectionError`).
-/
inductive PostOutcome where
  | response (status : Nat)
  | connectionError
  deriving DecidableEq, Repr

namespace App

/--
`push(text)`: `requests.post` to the Pushover endpoint with the message.
When the POST completes with an HTTP response, the response is discarded
unconditionally — the source never consults it — and the function returns
Python `None` together with the notification text that was posted; when
the transport fails, `requests.post` raises and the exception propagates
(there is no try/except in `push` or its callers).
-/
def push (text : String) (outcome : PostOutcome) :
    Except PyErr (PyVal × List String) :=
  match outcome with
  | PostOutcome.response _ => Except.ok (PyVal.none, [text])
  | PostOutcome.connectionError => Except.error PyErr.requestsConnectionError

/-- `record_user_details(email, name="Name not provided", notes="not provided")`. -/
def record_user_details (email name notes : PyVal) (outcome : PostOutcome) :
    Except PyErr (PyVal × List String) :=
  match push ("Recording " ++ pyStr name ++ " with email " ++ pyStr email
    ++ " and notes " ++ pyStr notes) outcome with
  | Except.ok (_, log) => Except.ok (PyVal.dict [("recorded", "ok")], log)
  | Except.error e => Except.error e

/-- `record_unknown_question(question)`. -/
def record_unknown_question (question : PyVal) (outcome : PostOutcome) :
    Except PyErr (PyVal × List String) :=
  match push ("Recording " ++ pyStr question) outcome with
  | Except.ok (_, log) => Except.ok (PyVal.dict [("recorded", "ok")], log)
  | Except.error e => Except.error e

/--
The truthy objects bound at module level in `app.py`, as seen by
`globals().get(tool_name)` in `handle_tool_call`. Modules, the JSON
schema dicts/list, strings, and instances without `__call__` are not
callable; imported classes and functions other than the four module-level
`def`s are external callables whose call semantics are delegated to an
oracle.
-/
inductive GlobalObj where
  | recordUserDetails
  | recordUnknownQuestion
  | pushFn
  | cleanTextFn
  /-- An imported class or function (callable, externally defined). -/
  | otherCallable (name : String)
  /-- A module, dict, list, string or non-callable instance: calling it
  raises `TypeError`. -/
  | nonCallable (name : String)
  deriving DecidableEq, Repr

/--
The module-level namespace of `app.py` as it stands when `chat` runs as a
script: the import-time assignments, `me` (assigned in the `__main__`
block before the UI launches), and the truthy implicit module attributes
(`__name__ = "__main__"`, `__file__`, `__loader__`, `__builtins__`).
Names bound to falsy values when the script runs (`__doc__`,
`__package__`, `__spec__`, `__cached__`, all `None` here) are modelled as
absent, because the dispatch guard
`result = tool(**arguments) if tool else {}` treats a falsy binding
exactly like an absent name: both take the `else {}` branch without
calling anything.
-/
def appGlobals : String → Option GlobalObj
  | "record_user_details" => some GlobalObj.recordUserDetails
  | "record_unknown_question" => some GlobalObj.recordUnknownQuestion
  | "push" => some GlobalObj.pushFn
  | "clean_text_for_audio" => some GlobalObj.cleanTextFn
  | "record_user_details_json" => some (GlobalObj.nonCallable "record_user_details_json")
  | "record_unknown_question_json" => some (GlobalObj.nonCallable "record_unknown_question_json")
  | "tools" => some (GlobalObj.nonCallable "tools")
  | "json" => some (GlobalObj.nonCallable "json")
  | "os" => some (GlobalObj.nonCallable "os")
  | "requests" => some (GlobalObj.nonCallable "requests")
  | "gr" => some (GlobalObj.nonCallable "gr")
  | "tempfile" => some (GlobalObj.nonCallable "tempfile")
  | "re" => some (GlobalObj.nonCallable "re")
  | "me" => some (GlobalObj.nonCallable "me")
  | "__name__" => some (GlobalObj.nonCallable "__name__")
  | "__file__" => some (GlobalObj.nonCallable "__file__")
  | "__loader__" => some (GlobalObj.nonCallable "__loader__")
  | "__builtins__" => some (GlobalObj.nonCallable "__builtins__")
  | "load_dotenv" => some (GlobalObj.otherCallable "load_dotenv")
  | "OpenAI" => some (GlobalObj.otherCallable "OpenAI")
  | "PdfReader" => some (GlobalObj.otherCallable "PdfReader")
  | "gTTS" => some (GlobalObj.otherCallable "gTTS")
  | "Me" => some (GlobalObj.otherCallable "Me")
  | _ => Option.none

/--
The type of the oracle giving the outcome of calling an imported
(externally defined) callable with model-supplied keyword arguments:
name and arguments to result value plus posted notifications, or an
exception.
-/
abbrev ExtCall := String → List (String × PyVal) → Except PyErr (PyVal × List String)

/--
Python call `tool(**arguments)` for each object `globals()` can yield in
`app.py`. `outcome` is how the notification endpoint behaves should the
call reach `requests.post`.
-/
def callGlobal (ext : ExtCall) (g : GlobalObj) (kv : List (String × PyVal))
    (outcome : PostOutcome) : Except PyErr (PyVal × List String) :=
  match g with
  | GlobalObj.recordUserDetails =>
    if kwValid kv ["email"] ["name", "notes"] then
      record_user_details
        ((kwLookup kv "email").getD PyVal.none)
        ((kwLookup kv "name").getD (PyVal.str "Name not provided"))
        ((kwLookup kv "notes").getD (PyVal.str "not provided")) outcome
    else Except.error PyErr.typeError
  | GlobalObj.recordUnknownQuestion =>
    if kwValid kv ["question"] [] then
      record_unknown_question
        ((kwLookup kv "question").getD PyVal.none) outcome
    else Except.error PyErr.typeError
  | GlobalObj.pushFn =>
    if kwValid kv ["text"] [] then
      push (pyStr ((kwLookup kv "text").getD PyVal.none)) outcome
    else Except.error PyErr.typeError
  | GlobalObj.cleanTextFn =>
    if kwValid kv ["text"] [] then
      match kwLookup kv "text" with
      | some (PyVal.str s) => Except.ok (PyVal.str (clean_text_for_audio s), [])
      | _ => Except.error PyErr.typeError
    else Except.error PyErr.typeError
  | GlobalObj.otherCallable n => ext n kv
  | GlobalObj.nonCallable _ => Except.error PyErr.typeError

/--
`Me.handle_tool_call`: for each request, parse the arguments with
`json.loads`, fetch `globals().get(tool_name)`, call it if bound (an empty
dict result if not), and collect
`{"role": "tool", "content": json.dumps(result), "tool_call_id": id}`
in request order. The first exception propagates and discards the round
(the `results` list is local to the call). The second component collects
the notification texts posted along the way.
-/
def handle_tool_call (ext : ExtCall) (outcome : PostOutcome) :
    List ToolCall → Except PyErr (List ToolMsg × List String)
  | [] => Except.ok ([], [])
  | tc :: rest =>
    match json_loads tc.function.arguments with
    | Except.error e => Except.error e
    | Except.ok args =>
      match (match appGlobals tc.function.name with
             | some g => callGlobal ext g args outcome
             | Option.none => Except.ok (PyVal.dict [], [])) with
      | Except.error e => Except.error e
      | Except.ok (result, log) =>
        match handle_tool_call ext outcome rest with
        | Except.error e => Except.error e
        | Except.ok (msgs, logs) =>
          Except.ok (⟨"tool", jsonDumps result, tc.id⟩ :: msgs, log ++ logs)

/--
The `while not done` loop of `Me.chat`, driven by a scripted list of
endpoint responses, one per round trip. Returns `none` when the script is
exhausted while the loop still wants another round trip; otherwise the
final content, the transcript at termination, and the number of round
trips performed.
-/
def chat_loop (ext : ExtCall) (outcome : PostOutcome) :
    List ModelResponse → List ChatMsg → Nat →
    Except PyErr (Option (String × List ChatMsg × Nat))
  | [], _, _ => Except.ok Option.none
  | r :: script, msgs, n =>
    if r.finish_reason = "tool_calls" then
      match handle_tool_call ext outcome r.tool_calls with
      | Except.error e => Except.error e
      | Except.ok (results, _) =>
        chat_loop ext outcome script
          (msgs ++ [ChatMsg.assistantToolCalls r.tool_calls]
            ++ results.map ChatMsg.toolResult) (n + 1)
    else Except.ok (some (r.content, msgs, n + 1))

/--
The tail of `Me.chat` after the loop: clean the final text, synthesize
audio (`gTTS(...)` and `tts.save(...)`, modelled by the `synth` oracle:
`none` means synthesis raised), and return the pair
`(response_text, temp_audio.name)`. Note the synthesis happens before the
`return`, so a synthesis exception propagates and no text is returned.
-/
def chat_finish (response_text : String) (synth : String → Option String) :
    Except PyErr (String × String) :=
  match synth (clean_text_for_audio response_text) with
  | some path => Except.ok (response_text, path)
  | Option.none => Except.error PyErr.ttsError

end App

namespace Gen

/--
`SubjectTeacherAgent.load_pdf_content`: derive the path
`content/<subject.lower()>/chapter<n>.pdf`; if the file does not exist,
return the not-found string; otherwise concatenate `page.extract_text()`
over the pages in order, skipping pages whose text is `None` or empty
(`if text:`). The filesystem is the oracle `fs`, mapping an existing path
to its pages' extracted texts (`none` for a page whose extraction yields
`None`).
-/
def load_pdf_content (fs : String → Option (List (Option String)))
    (subject chapter_number : String) : String :=
  let path := "content/" ++ pyLower subject ++ "/chapter" ++ chapter_number ++ ".pdf"
  match fs path with
  | Option.none =>
    "No content found for subject: " ++ subject ++ " Chapter " ++ chapter_number ++ "."
  | some pages =>
    pages.foldl (fun content t =>
      match t with
      | some s => if s = "" then content else content ++ s
      | Option.none => content) ""

/--
`SubjectTeacherAgent.handle_tool_call`: parse each request's arguments with
`json.loads`, then append the fixed simulated result
`{"recorded": "ok"}` correlated by `tool_call_id`, in request order. No
dispatch happens; the parsed arguments are unused.
-/
def handle_tool_call : List ToolCall → Except PyErr (List ToolMsg)
  | [] => Except.ok []
  | tc :: rest =>
    match json_loads tc.function.arguments with
    | Except.error e => Except.error e
    | Except.ok _ =>
      match handle_tool_call rest with
      | Except.error e => Except.error e
      | Except.ok msgs =>
        Except.ok (⟨"tool", jsonDumps (PyVal.dict [("recorded", "ok")]), tc.id⟩ :: msgs)

/--
The `while not done` loop of `SubjectTeacherAgent.chat`, driven by a
scripted list of endpoint responses; same shape as `App.chat_loop` with
the simulated tool handler.
-/
def chat_loop : List ModelResponse → List ChatMsg → Nat →
    Except PyErr (Option (String × List ChatMsg × Nat))
  | [], _, _ => Except.ok Option.none
  | r :: script, msgs, n =>
    if r.finish_reason = "tool_calls" then
      match handle_tool_call r.tool_calls with
      | Except.error e => Except.error e
      | Except.ok results =>
        chat_loop script
          (msgs ++ [ChatMsg.assistantToolCalls r.tool_calls]
            ++ results.map ChatMsg.toolResult) (n + 1)
    else Except.ok (some (r.content, msgs, n + 1))

/--
The tail of `SubjectTeacherAgent.chat` after the loop: clean the final
text, synthesize audio (`synth` oracle; `none` means the synthesis call
raised), and return `(response_text, temp_audio.name)` (the returned
transcript and its markdown rendering are omitted from the model). The
synthesis happens before the `return`, so a synthesis exception propagates
and no text is returned.
-/
def chat_finish (response_text : String) (synth : String → Option String) :
    Except PyErr (String × String) :=
  match synth (clean_text_for_audio response_text) with
  | some path => Except.ok (response_text, path)
  | Option.none => Except.error PyErr.ttsError

end Gen

/-- Whether a payload parses (used to phrase hypotheses decidably). -/
def ArgsPayload.isParsed : ArgsPayload → Bool
  | ArgsPayload.parsed _ => true
  | ArgsPayload.malformed _ => false

/--
Spec-side reading of the loader's present-resource contract, for comparison
with the source's fold: "the concatenation of the extractable text of all
pages in page order, skipping pages that yield no extractable text".
(Skipping an empty text is the same as concatenating the empty string.)
-/
def concatExtractable : List (Option String) → String
  | [] => ""
  | p :: rest => p.getD "" ++ concatExtractable rest

/-! ## Concrete fixtures used by witnesses and counterexamples -/

/-- An external-call oracle; its value is irrelevant to the statements using it. -/
def extOpaque : App.ExtCall := fun _ _ => Except.error PyErr.typeError

/-- A request whose arguments payload fails to parse. -/
def malformedCall : ToolCall :=
  ⟨"c1", ⟨"record_user_details", ArgsPayload.malformed "not json"⟩⟩

/-- A request naming `push`, a module-level function outside the tool registry. -/
def pushCall : ToolCall := ⟨"p1", ⟨"push", ArgsPayload.parsed [("text", PyVal.str "hi")]⟩⟩

/-- A request naming `tools`, a module-level list (not callable). -/
def toolsCall : ToolCall := ⟨"t1", ⟨"tools", ArgsPayload.parsed []⟩⟩

/-- A request whose name is bound to no module-level global. -/
def unknownCall : ToolCall := ⟨"u1", ⟨"frobnicate", ArgsPayload.parsed []⟩⟩

/-- A well-formed `record_user_details` request. -/
def rudCall : ToolCall :=
  ⟨"c5", ⟨"record_user_details", ArgsPayload.parsed [("email", PyVal.str "a@b.com")]⟩⟩

/-- The sanitizer input of the spec's sanitation test point. -/
def c4Input : String := "**Hello** (whisper) \"world\"\n\n1. cat\n2. dog"

/-- A filesystem with exactly one resource, `content/hindi/chapter1.pdf`. -/
def fsExample (p : String) : Option (List (Option String)) :=
  if p = "content/hindi/chapter1.pdf"
  then some [some "a", Option.none, some "", some "b"]
  else Option.none

/-! ## Predicates describing sanitizer outputs -/

/-- `l` holds no two adjacent whitespace characters. -/
def noWsRun : List Char → Bool
  | c :: d :: rest => (!(isPySpace c && isPySpace d)) && noWsRun (d :: rest)
  | _ => true

/-- The head of `l`, if any, is not whitespace. -/
def headNotWs : List Char → Bool
  | [] => true
  | c :: _ => !isPySpace c

/--
The characters `app.py`'s sanitizer acts on: the markdown pattern
characters `* _ ~ `` ` `` and the quote/bracket class.
-/
def specialChar (c : Char) : Bool :=
  c = '*' || c = '_' || c = '~' || c = '`' || isQuoteBracket c

/-! ## Helper lemmas on the tool handlers -/

/-- Shape of a successful `generic-teacher.py` round resolution. -/
theorem gen_handle_spec : ∀ (tcs : List ToolCall) (results : List ToolMsg),
    Gen.handle_tool_call tcs = Except.ok results →
    results.length = tcs.length ∧
      ∀ (i : Nat) (h : i < results.length) (h' : i < tcs.length),
        (results.get ⟨i, h⟩).role = "tool" ∧
        (results.get ⟨i, h⟩).tool_call_id = (tcs.get ⟨i, h'⟩).id := by
  intro tcs
  induction tcs with
  | nil =>
    intro results h
    simp only [Gen.handle_tool_call, Except.ok.injEq] at h
    subst h
    exact ⟨rfl, fun i h => absurd h (by simp)⟩
  | cons tc rest ih =>
    intro results h
    simp only [Gen.handle_tool_call] at h
    cases hj : json_loads tc.function.arguments with
    | error e => rw [hj] at h; cases h
    | ok args =>
      rw [hj] at h
      cases hr : Gen.handle_tool_call rest with
      | error e => rw [hr] at h; cases h
      | ok msgs =>
        rw [hr] at h
        simp only [Except.ok.injEq] at h
        subst h
        obtain ⟨hlen, hcorr⟩ := ih msgs hr
        refine ⟨by simp [hlen], ?_⟩
        intro i h h'
        cases i with
        | zero => exact ⟨rfl, rfl⟩
        | succ j =>
          exact hcorr j (by simpa using h) (by simpa using h')

/-- Shape of a successful `app.py` round resolution. -/
theorem app_handle_spec : ∀ (ext : App.ExtCall) (outcome : PostOutcome)
    (tcs : List ToolCall) (results : List ToolMsg) (log : List String),
    App.handle_tool_call ext outcome tcs = Except.ok (results, log) →
    results.length = tcs.length ∧
      ∀ (i : Nat) (h : i < results.length) (h' : i < tcs.length),
        (results.get ⟨i, h⟩).role = "tool" ∧
        (results.get ⟨i, h⟩).tool_call_id = (tcs.get ⟨i, h'⟩).id := by
  intro ext outcome tcs
  induction tcs with
  | nil =>
    intro results log h
    simp only [App.handle_tool_call, Except.ok.injEq, Prod.mk.injEq] at h
    obtain ⟨h1, _⟩ := h
    subst h1
    exact ⟨rfl, fun i h => absurd h (by simp)⟩
  | cons tc rest ih =>
    intro results log h
    cases hj : json_loads tc.function.arguments with
    | error e => simp [App.handle_tool_call, hj] at h
    | ok args =>
      cases hc : (match App.appGlobals tc.function.name with
                  | some g => App.callGlobal ext g args outcome
                  | Option.none => Except.ok (PyVal.dict [], [])) with
      | error e => simp [App.handle_tool_call, hj, hc] at h
      | ok rl =>
        obtain ⟨result, lg⟩ := rl
        cases hr : App.handle_tool_call ext outcome rest with
        | error e => simp [App.handle_tool_call, hj, hc, hr] at h
        | ok ml =>
          obtain ⟨msgs, logs⟩ := ml
          simp only [App.handle_tool_call, hj, hc, hr, Except.ok.injEq,
            Prod.mk.injEq] at h
          obtain ⟨h1, _⟩ := h
          subst h1
          obtain ⟨hlen, hcorr⟩ := ih msgs logs hr
          refine ⟨by simp [hlen], ?_⟩
          intro i h h'
          cases i with
          | zero => exact ⟨rfl, rfl⟩
          | succ j =>
            exact hcorr j (by simpa using h) (by simpa using h')

/--
C1: for every tool-call round, a successful resolution yields exactly one
`ToolResult` message per `ToolInvocationRequest`, each result's
`tool_call_id` equal to its request's `id`, in request order; and the loop
appends them to the transcript after the assistant's tool-call message and
before the next model call (in both `generic-teacher.py` and `app.py`).
-/
theorem c1_one_result_per_request :
    (∀ (tcs : List ToolCall) (results : List ToolMsg),
      Gen.handle_tool_call tcs = Except.ok results →
      results.length = tcs.length ∧
        ∀ (i : Nat) (h : i < results.length) (h' : i < tcs.length),
          (results.get ⟨i, h⟩).role = "tool" ∧
          (results.get ⟨i, h⟩).tool_call_id = (tcs.get ⟨i, h'⟩).id) ∧
    (∀ (ext : App.ExtCall) (outcome : PostOutcome) (tcs : List ToolCall)
        (results : List ToolMsg) (log : List String),
      App.handle_tool_call ext outcome tcs = Except.ok (results, log) →
      results.length = tcs.length ∧
        ∀ (i : Nat) (h : i < results.length) (h' : i < tcs.length),
          (results.get ⟨i, h⟩).role = "tool" ∧
          (results.get ⟨i, h⟩).tool_call_id = (tcs.get ⟨i, h'⟩).id) ∧
    (∀ (r : ModelResponse) (script : List ModelResponse) (msgs : List ChatMsg)
        (n : Nat) (results : List ToolMsg),
      r.finish_reason = "tool_calls" →
      Gen.handle_tool_call r.tool_calls = Except.ok results →
      Gen.chat_loop (r :: script) msgs n =
        Gen.chat_loop script
          (msgs ++ [ChatMsg.assistantToolCalls r.tool_calls]
            ++ results.map ChatMsg.toolResult) (n + 1)) ∧
    (∀ (ext : App.ExtCall) (outcome : PostOutcome) (r : ModelResponse)
        (script : List ModelResponse) (msgs : List ChatMsg) (n : Nat)
        (results : List ToolMsg) (log : List String),
      r.finish_reason = "tool_calls" →
      App.handle_tool_call ext outcome r.tool_calls = Except.ok (results, log) →
      App.chat_loop ext outcome (r :: script) msgs n =
        App.chat_loop ext outcome script
          (msgs ++ [ChatMsg.assistantToolCalls r.tool_calls]
            ++ results.map ChatMsg.toolResult) (n + 1)) := by
  refine ⟨gen_handle_spec, app_handle_spec, ?_, ?_⟩
  · intro r script msgs n results hfin hok
    simp [Gen.chat_loop, hfin, hok]
  · intro ext outcome r script msgs n results log hfin hok
    simp [App.chat_loop, hfin, hok]

/-- Concrete instance of C1 at a one-request round. -/
theorem c1_one_result_per_request_witness :
    Gen.handle_tool_call [rudCall] =
      Except.ok [⟨"tool", "\x7b\"recorded\": \"ok\"\x7d", "c5"⟩] ∧
    ([(⟨"tool", "\x7b\"recorded\": \"ok\"\x7d", "c5"⟩ : ToolMsg)]).length =
      [rudCall].length ∧
    Gen.chat_loop [⟨"tool_calls", "", [rudCall]⟩, ⟨"stop", "done", []⟩] [] 0 =
      Gen.chat_loop [⟨"stop", "done", []⟩]
        ([] ++ [ChatMsg.assistantToolCalls [rudCall]]
          ++ [ToolMsg.mk "tool" "\x7b\"recorded\": \"ok\"\x7d" "c5"].map ChatMsg.toolResult) 1 :=
  ⟨by rfl,
   (c1_one_result_per_request.1 [rudCall]
     [⟨"tool", "\x7b\"recorded\": \"ok\"\x7d", "c5"⟩] (by rfl)).1,
   c1_one_result_per_request.2.2.1 ⟨"tool_calls", "", [rudCall]⟩
     [⟨"stop", "done", []⟩] [] 0
     [⟨"tool", "\x7b\"recorded\": \"ok\"\x7d", "c5"⟩] (by rfl) (by rfl)⟩

/--
C2 counterexample: a request naming `push` — a module-level function that
matches no tool in the registry — does not receive an empty result object:
`push` itself is invoked (posting the notification `"hi"`) and its `None`
return is serialized as `"null"`; and a request naming `tools` — the
module-level list, also matching no registry tool — raises `TypeError`.
-/
theorem c2_unknown_name_counterexample :
    App.handle_tool_call extOpaque (PostOutcome.response 200) [pushCall] =
      Except.ok ([⟨"tool", "null", "p1"⟩], ["hi"]) ∧
    App.handle_tool_call extOpaque (PostOutcome.response 200) [toolsCall] =
      Except.error PyErr.typeError :=
  ⟨rfl, rfl⟩

/--
C2 amended: in `app.py`, a round whose requests all name identifiers absent
from the module's global namespace (and whose arguments parse) never raises
and synthesizes the empty result object `{}` for each request; a name bound
to any global is dispatched to that object instead. In `generic-teacher.py`,
every request whose arguments parse receives the fixed simulated result
`{"recorded": "ok"}` — not an empty object — and never raises.
-/
theorem c2_unknown_name_empty_result :
    (∀ (ext : App.ExtCall) (outcome : PostOutcome) (tcs : List ToolCall),
      (∀ tc ∈ tcs, App.appGlobals tc.function.name = Option.none ∧
        tc.function.arguments.isParsed = true) →
      App.handle_tool_call ext outcome tcs =
        Except.ok (tcs.map (fun tc => ⟨"tool", "\x7b\x7d", tc.id⟩), [])) ∧
    (∀ tcs : List ToolCall,
      (∀ tc ∈ tcs, tc.function.arguments.isParsed = true) →
      Gen.handle_tool_call tcs =
        Except.ok (tcs.map
          (fun tc => ⟨"tool", "\x7b\"recorded\": \"ok\"\x7d", tc.id⟩))) := by
  constructor
  · intro ext outcome tcs h
    induction tcs with
    | nil => rfl
    | cons tc rest ih =>
      obtain ⟨hg, hp⟩ := h tc (List.mem_cons_self tc rest)
      have hrest := ih (fun t ht => h t (List.mem_cons_of_mem tc ht))
      cases ha : tc.function.arguments with
      | malformed raw => rw [ha] at hp; simp [ArgsPayload.isParsed] at hp
      | parsed kv =>
        simp [App.handle_tool_call, ha, json_loads, hg, hrest]
        rfl
  · intro tcs h
    induction tcs with
    | nil => rfl
    | cons tc rest ih =>
      have hp := (h tc (List.mem_cons_self tc rest))
      have hrest := ih (fun t ht => h t (List.mem_cons_of_mem tc ht))
      cases ha : tc.function.arguments with
      | malformed raw => rw [ha] at hp; simp [ArgsPayload.isParsed] at hp
      | parsed kv =>
        simp [Gen.handle_tool_call, ha, json_loads, hrest]
        rfl

/-- Concrete instance of the amended C2 at an unregistered, unbound name. -/
theorem c2_unknown_name_empty_result_witness :
    (App.appGlobals unknownCall.function.name = Option.none ∧
      unknownCall.function.arguments.isParsed = true ∧
      App.handle_tool_call extOpaque (PostOutcome.response 200) [unknownCall] =
        Except.ok ([⟨"tool", "\x7b\x7d", "u1"⟩], [])) ∧
    Gen.handle_tool_call [unknownCall] =
      Except.ok [⟨"tool", "\x7b\"recorded\": \"ok\"\x7d", "u1"⟩] :=
  ⟨⟨rfl, rfl,
    c2_unknown_name_empty_result.1 extOpaque (PostOutcome.response 200) [unknownCall]
      (by intro tc ht; simp at ht; subst ht; exact ⟨rfl, rfl⟩)⟩,
   c2_unknown_name_empty_result.2 [unknownCall]
     (by intro tc ht; simp at ht; subst ht; rfl)⟩

/--
C3: the code contradicts the spec here — a request whose arguments payload
fails to parse raises `json.JSONDecodeError` from `json.loads` out of
`handle_tool_call` (in both files) and out of the conversation loop,
appending no tool result at all; no error payload is synthesized.
-/
theorem c3_malformed_arguments_raise :
    (∀ (ext : App.ExtCall) (outcome : PostOutcome),
      App.handle_tool_call ext outcome [malformedCall] =
        Except.error PyErr.jsonDecodeError) ∧
    Gen.handle_tool_call [malformedCall] = Except.error PyErr.jsonDecodeError ∧
    (∀ (script : List ModelResponse) (msgs : List ChatMsg) (n : Nat),
      Gen.chat_loop (⟨"tool_calls", "", [malformedCall]⟩ :: script) msgs n =
        Except.error PyErr.jsonDecodeError) :=
  ⟨fun _ _ => rfl, rfl, fun _ _ _ => rfl⟩

/--
C4 counterexample: on the spec's test input, `generic-teacher.py`'s
sanitizer keeps the raw quote characters (so "no raw quote characters"
fails), and `app.py`'s keeps the parenthetical's content ("whisper") and
does not end the numbered items with periods.
-/
theorem c4_sanitizer_counterexample :
    Gen.clean_text_for_audio c4Input = "Hello \"world\" 1. cat. 2. dog." ∧
    '"' ∈ (Gen.clean_text_for_audio c4Input).data ∧
    App.clean_text_for_audio c4Input = "Hello whisper world 1. cat\n2. dog" := by
  refine ⟨by rfl, ?_, by rfl⟩
  rw [(by rfl : Gen.clean_text_for_audio c4Input = "Hello \"world\" 1. cat. 2. dog.")]
  decide

/--
C4 amended: on that input, `app.py`'s sanitizer strips the emphasis markers
and the parenthesis/quote characters (keeping the parenthetical's content
and leaving the numbered items unterminated) and collapses the blank lines,
leaving no markdown, parenthesis or quote characters;
`generic-teacher.py`'s sanitizer removes the parenthetical with its
content, ends the numbered items with periods and collapses the blank
lines, leaving no markdown or parenthesis characters but keeping the raw
quote characters.
-/
theorem c4_sanitizer_behaviour :
    App.clean_text_for_audio c4Input = "Hello whisper world 1. cat\n2. dog" ∧
    (∀ c ∈ (App.clean_text_for_audio c4Input).data,
      ¬(c = '*' ∨ c = '(' ∨ c = ')' ∨ c = '"')) ∧
    Gen.clean_text_for_audio c4Input = "Hello \"world\" 1. cat. 2. dog." ∧
    (∀ c ∈ (Gen.clean_text_for_audio c4Input).data,
      ¬(c = '*' ∨ c = '(' ∨ c = ')')) := by
  refine ⟨by rfl, ?_, by rfl, ?_⟩
  · rw [(by rfl : App.clean_text_for_audio c4Input
      = "Hello whisper world 1. cat\n2. dog")]
    decide
  · rw [(by rfl : Gen.clean_text_for_audio c4Input
      = "Hello \"world\" 1. cat. 2. dog.")]
    decide

/--
C6: when the first scripted response does not signal tool calls, both
conversation loops terminate after exactly one round trip and return that
response's content unchanged.
-/
theorem c6_no_tools_single_round_trip :
    (∀ (script : List ModelResponse) (msgs : List ChatMsg) (r : ModelResponse),
      r.finish_reason ≠ "tool_calls" →
      Gen.chat_loop (r :: script) msgs 0 =
        Except.ok (some (r.content, msgs, 1))) ∧
    (∀ (ext : App.ExtCall) (outcome : PostOutcome) (script : List ModelResponse)
        (msgs : List ChatMsg) (r : ModelResponse),
      r.finish_reason ≠ "tool_calls" →
      App.chat_loop ext outcome (r :: script) msgs 0 =
        Except.ok (some (r.content, msgs, 1))) := by
  constructor
  · intro script msgs r h
    simp [Gen.chat_loop, h]
  · intro ext outcome script msgs r h
    simp [App.chat_loop, h]

/-- Concrete instance of C6 at a scripted "stop" response. -/
theorem c6_no_tools_single_round_trip_witness :
    (("stop" : String) ≠ "tool_calls") ∧
    Gen.chat_loop [⟨"stop", "final answer", []⟩] [ChatMsg.user "hi"] 0 =
      Except.ok (some ("final answer", [ChatMsg.user "hi"], 1)) :=
  ⟨by decide,
   c6_no_tools_single_round_trip.1 [] [ChatMsg.user "hi"]
     ⟨"stop", "final answer", []⟩ (by decide)⟩

/--
C7 counterexample: when the notification transport fails, `requests.post`
raises inside `push`, the exception propagates out of
`record_user_details` — which therefore does not return
`{"recorded": "ok"}` — and out of `handle_tool_call`, surfacing to the
caller with no tool result appended; so the claimed unconditional
acknowledgment and "never surfaced" fail on the code.
-/
theorem c7_notification_failure_counterexample :
    App.record_user_details (PyVal.str "a@b.com")
        (PyVal.str "Name not provided") (PyVal.str "not provided")
        PostOutcome.connectionError =
      Except.error PyErr.requestsConnectionError ∧
    App.handle_tool_call extOpaque PostOutcome.connectionError [rudCall] =
      Except.error PyErr.requestsConnectionError :=
  ⟨rfl, rfl⟩

/--
C7 amended: whenever the notification POST completes with an HTTP
response, `record_user_details` and `record_unknown_question` return
`{"recorded": "ok"}` for every argument and every response status — the
response is discarded unconditionally, so an endpoint-side failure status
is never surfaced to the caller or the transcript; a transport-level
failure of the POST, however, raises out of the tool and the round.
-/
theorem c7_record_tools_ok_on_http_response :
    ∀ (ext : App.ExtCall) (email name notes question : PyVal) (status : Nat),
      App.record_user_details email name notes (PostOutcome.response status) =
        Except.ok (PyVal.dict [("recorded", "ok")],
          ["Recording " ++ pyStr name ++ " with email " ++ pyStr email
            ++ " and notes " ++ pyStr notes]) ∧
      App.record_unknown_question question (PostOutcome.response status) =
        Except.ok (PyVal.dict [("recorded", "ok")],
          ["Recording " ++ pyStr question]) ∧
      App.handle_tool_call ext (PostOutcome.response status) [rudCall] =
        Except.ok ([⟨"tool", "\x7b\"recorded\": \"ok\"\x7d", "c5"⟩],
          ["Recording Name not provided with email a@b.com and notes not provided"]) ∧
      App.handle_tool_call ext (PostOutcome.response status)
          [⟨"q1", ⟨"record_unknown_question",
            ArgsPayload.parsed [("question", PyVal.str "why?")]⟩⟩] =
        Except.ok ([⟨"tool", "\x7b\"recorded\": \"ok\"\x7d", "q1"⟩],
          ["Recording why?"]) :=
  fun _ _ _ _ _ _ => ⟨rfl, rfl, rfl, rfl⟩

/-- The source's fold in `load_pdf_content`, related to the spec-side
concatenation. -/
theorem load_fold_eq : ∀ (pages : List (Option String)) (acc : String),
    pages.foldl (fun content t =>
      match t with
      | some s => if s = "" then content else content ++ s
      | Option.none => content) acc = acc ++ concatExtractable pages := by
  intro pages
  induction pages with
  | nil => intro acc; simp [concatExtractable]
  | cons p rest ih =>
    intro acc
    cases p with
    | none => simp [concatExtractable, ih]
    | some s =>
      by_cases hs : s = ""
      · subst hs; simp [concatExtractable, ih]
      · simp [concatExtractable, ih, hs, String.append_assoc]

/--
C8: the content loader is total; on an absent resource it returns the
not-found placeholder for that subject and chapter, and on a present
resource it returns the concatenation of the pages' extractable text in
page order, skipping pages yielding `None` or empty text.
-/
theorem c8_loader_soft_failure :
    ∀ (fs : String → Option (List (Option String))) (subject ch : String),
      (fs ("content/" ++ pyLower subject ++ "/chapter" ++ ch ++ ".pdf") =
          Option.none →
        Gen.load_pdf_content fs subject ch =
          "No content found for subject: " ++ subject ++ " Chapter " ++ ch ++ ".") ∧
      (∀ pages,
        fs ("content/" ++ pyLower subject ++ "/chapter" ++ ch ++ ".pdf") =
            some pages →
        Gen.load_pdf_content fs subject ch = concatExtractable pages) := by
  intro fs subject ch
  constructor
  · intro h
    simp [Gen.load_pdf_content, h]
  · intro pages h
    simp [Gen.load_pdf_content, h, load_fold_eq pages ""]

/-- Concrete instance of C8 on a one-resource filesystem. -/
theorem c8_loader_soft_failure_witness :
    (fsExample "content/math/chapter2.pdf" = Option.none ∧
      Gen.load_pdf_content fsExample "Math" "2" =
        "No content found for subject: Math Chapter 2.") ∧
    (fsExample "content/hindi/chapter1.pdf" =
        some [some "a", Option.none, some "", some "b"] ∧
      Gen.load_pdf_content fsExample "Hindi" "1" = "ab") :=
  ⟨⟨rfl, (c8_loader_soft_failure fsExample "Math" "2").1 rfl⟩,
   ⟨rfl, ((c8_loader_soft_failure fsExample "Hindi" "1").2
     [some "a", Option.none, some "", some "b"] rfl).trans (by rfl)⟩⟩

/--
C9: the code contradicts the spec here — in both files the TTS synthesis
sits between computing the final text and the `return`, so a synthesis
failure raises out of `chat` and the text answer is lost instead of being
returned; the outputs are not independent.
-/
theorem c9_tts_failure_loses_text :
    ∀ (t : String),
      App.chat_finish t (fun _ => Option.none) = Except.error PyErr.ttsError ∧
      Gen.chat_finish t (fun _ => Option.none) = Except.error PyErr.ttsError ∧
      ∀ (p : String), App.chat_finish t (fun _ => some p) = Except.ok (t, p) :=
  fun _ => ⟨rfl, rfl, fun _ => rfl⟩

/--
C10: `app.py`'s dispatch guard is `globals().get(tool_name)`: any request
whose name is bound to a module-level global has that object invoked with
the model-supplied arguments (concretely, naming `push` executes `push`,
posting a notification), and only a name absent from the module globals
yields the empty result object.
-/
theorem c10_dispatch_by_globals :
    (∀ (ext : App.ExtCall) (outcome : PostOutcome) (tc : ToolCall)
        (kv : List (String × PyVal)) (g : App.GlobalObj),
      tc.function.arguments = ArgsPayload.parsed kv →
      App.appGlobals tc.function.name = some g →
      App.handle_tool_call ext outcome [tc] =
        match App.callGlobal ext g kv outcome with
        | Except.ok (v, log) => Except.ok ([⟨"tool", jsonDumps v, tc.id⟩], log)
        | Except.error e => Except.error e) ∧
    App.handle_tool_call extOpaque (PostOutcome.response 200) [pushCall] =
      Except.ok ([⟨"tool", "null", "p1"⟩], ["hi"]) ∧
    (∀ (ext : App.ExtCall) (outcome : PostOutcome) (tc : ToolCall)
        (kv : List (String × PyVal)),
      tc.function.arguments = ArgsPayload.parsed kv →
      App.appGlobals tc.function.name = Option.none →
      App.handle_tool_call ext outcome [tc] =
        Except.ok ([⟨"tool", "\x7b\x7d", tc.id⟩], [])) := by
  refine ⟨?_, rfl, ?_⟩
  · intro ext outcome tc kv g ha hg
    cases hc : App.callGlobal ext g kv outcome with
    | error e => simp [App.handle_tool_call, ha, json_loads, hg, hc]
    | ok rl =>
      obtain ⟨v, log⟩ := rl
      simp [App.handle_tool_call, ha, json_loads, hg, hc]
  · intro ext outcome tc kv ha hg
    simp [App.handle_tool_call, ha, json_loads, hg]
    rfl

/-- Concrete instance of C10: dispatch at a bound name and an unbound one. -/
theorem c10_dispatch_by_globals_witness :
    (pushCall.function.arguments = ArgsPayload.parsed [("text", PyVal.str "hi")] ∧
      App.appGlobals pushCall.function.name = some App.GlobalObj.pushFn ∧
      App.handle_tool_call extOpaque (PostOutcome.response 200) [pushCall] =
        match App.callGlobal extOpaque App.GlobalObj.pushFn
            [("text", PyVal.str "hi")] (PostOutcome.response 200) with
        | Except.ok (v, log) => Except.ok ([⟨"tool", jsonDumps v, "p1"⟩], log)
        | Except.error e => Except.error e) ∧
    (unknownCall.function.arguments = ArgsPayload.parsed [] ∧
      App.appGlobals unknownCall.function.name = Option.none ∧
      App.handle_tool_call extOpaque (PostOutcome.response 200) [unknownCall] =
        Except.ok ([⟨"tool", "\x7b\x7d", "u1"⟩], [])) :=
  ⟨⟨rfl, rfl,
    c10_dispatch_by_globals.1 extOpaque (PostOutcome.response 200) pushCall
      [("text", PyVal.str "hi")] App.GlobalObj.pushFn rfl rfl⟩,
   ⟨rfl, rfl,
    c10_dispatch_by_globals.2.2 extOpaque (PostOutcome.response 200) unknownCall [] rfl rfl⟩⟩

/-! ## Lemmas about whitespace collapsing and stripping -/

theorem noWsRun_tail {c : Char} {l : List Char}
    (h : noWsRun (c :: l) = true) : noWsRun l = true := by
  cases l with
  | nil => rfl
  | cons d r => simp only [noWsRun, Bool.and_eq_true] at h; exact h.2

theorem noWsRun_cons_of_not_ws {c : Char} {l : List Char}
    (hc : isPySpace c = false) (h : noWsRun l = true) :
    noWsRun (c :: l) = true := by
  cases l with
  | nil => rfl
  | cons d r => simp [noWsRun, hc, h]

theorem noWsRun_cons_of_head_not_ws {c : Char} {l : List Char}
    (hl : headNotWs l = true) (h : noWsRun l = true) :
    noWsRun (c :: l) = true := by
  cases l with
  | nil => rfl
  | cons d r =>
    simp only [headNotWs, Bool.not_eq_true'] at hl
    simp [noWsRun, hl, h]

theorem collapseGo_true_head :
    ∀ l : List Char, headNotWs (App.collapseGo true l) = true := by
  intro l
  induction l with
  | nil => rfl
  | cons c rest ih =>
    by_cases hc : isPySpace c
    · simpa [App.collapseGo, hc] using ih
    · simp [App.collapseGo, hc, headNotWs]

theorem collapseGo_false_cons_not_ws (c : Char) (rest : List Char)
    (hc : isPySpace c = false) :
    App.collapseGo false (c :: rest) = c :: App.collapseGo false rest := by
  cases rest with
  | nil => simp [App.collapseGo, hc]
  | cons d r => simp [App.collapseGo, hc]

theorem collapseGo_noWsRun : ∀ (n : Nat) (l : List Char), l.length ≤ n →
    noWsRun (App.collapseGo true l) = true ∧
    noWsRun (App.collapseGo false l) = true := by
  intro n
  induction n with
  | zero =>
    intro l hl
    have : l = [] := List.eq_nil_of_length_eq_zero (Nat.le_zero.mp hl)
    subst this
    exact ⟨rfl, rfl⟩
  | succ n ih =>
    intro l hl
    cases l with
    | nil => exact ⟨rfl, rfl⟩
    | cons c rest =>
      have hrest : rest.length ≤ n := by
        simpa [Nat.succ_le_succ_iff] using hl
      constructor
      · by_cases hc : isPySpace c
        · simpa [App.collapseGo, hc] using (ih rest hrest).1
        · rw [show App.collapseGo true (c :: rest)
              = c :: App.collapseGo false rest by simp [App.collapseGo, hc]]
          exact noWsRun_cons_of_not_ws (by simpa using hc) (ih rest hrest).2
      · cases rest with
        | nil => rfl
        | cons d r =>
          have hr : r.length ≤ n := Nat.le_of_succ_le hrest
          have hdr : (d :: r).length ≤ n := hrest
          by_cases hc : isPySpace c
          · by_cases hd : isPySpace d
            · rw [show App.collapseGo false (c :: d :: r)
                  = ' ' :: App.collapseGo true r by simp [App.collapseGo, hc, hd]]
              exact noWsRun_cons_of_head_not_ws (collapseGo_true_head r)
                (ih r hr).1
            · rw [show App.collapseGo false (c :: d :: r)
                  = c :: App.collapseGo false (d :: r) by
                    simp [App.collapseGo, hc, hd]]
              refine noWsRun_cons_of_head_not_ws ?_ (ih (d :: r) hdr).2
              rw [collapseGo_false_cons_not_ws d r (by simpa using hd)]
              simpa [headNotWs] using hd
          · rw [show App.collapseGo false (c :: d :: r)
                = c :: App.collapseGo false (d :: r) by simp [App.collapseGo, hc]]
            exact noWsRun_cons_of_not_ws (by simpa using hc) (ih (d :: r) hdr).2

theorem collapseGo_false_eq_self :
    ∀ l : List Char, noWsRun l = true → App.collapseGo false l = l := by
  intro l
  induction l with
  | nil => intro _; rfl
  | cons c rest ih =>
    intro h
    cases rest with
    | nil => rfl
    | cons d r =>
      simp only [noWsRun, Bool.and_eq_true, Bool.not_eq_true',
        Bool.and_eq_false_iff] at h
      have hdr := ih h.2
      rcases h.1 with hc | hd
      · simp [App.collapseGo, hc, hdr]
      · by_cases hc : isPySpace c
        · simp [App.collapseGo, hc, hd, hdr]
        · simp [App.collapseGo, hc, hdr]

theorem dropWhile_noWsRun {l : List Char} (h : noWsRun l = true) :
    noWsRun (l.dropWhile isPySpace) = true := by
  induction l with
  | nil => exact h
  | cons c rest ih =>
    by_cases hc : isPySpace c
    · simpa [List.dropWhile, hc] using ih (noWsRun_tail h)
    · simpa [List.dropWhile, hc] using h

theorem dropWhile_headNotWs :
    ∀ l : List Char, headNotWs (l.dropWhile isPySpace) = true := by
  intro l
  induction l with
  | nil => rfl
  | cons c rest ih =>
    by_cases hc : isPySpace c
    · simpa [List.dropWhile, hc] using ih
    · simp [List.dropWhile, hc, headNotWs]

theorem dropWhile_eq_self_of_headNotWs {l : List Char}
    (h : headNotWs l = true) : l.dropWhile isPySpace = l := by
  cases l with
  | nil => rfl
  | cons c rest =>
    simp only [headNotWs, Bool.not_eq_true'] at h
    simp [List.dropWhile, h]

theorem dropWhile_isPySpace_idem (l : List Char) :
    (l.dropWhile isPySpace).dropWhile isPySpace = l.dropWhile isPySpace :=
  dropWhile_eq_self_of_headNotWs (dropWhile_headNotWs l)

theorem dropTrailingWs_prefix :
    ∀ l : List Char, ∃ t, l = App.dropTrailingWs l ++ t := by
  intro l
  induction l with
  | nil => exact ⟨[], rfl⟩
  | cons c rest ih =>
    obtain ⟨t, ht⟩ := ih
    cases h : App.dropTrailingWs rest with
    | nil =>
      rw [h] at ht
      by_cases hc : isPySpace c
      · exact ⟨c :: rest, by simp [App.dropTrailingWs, h, hc]⟩
      · exact ⟨t, by simp [App.dropTrailingWs, h, hc]; exact ht⟩
    | cons d r =>
      rw [h] at ht
      exact ⟨t, by simp [App.dropTrailingWs, h]; exact ht⟩

theorem noWsRun_append_left :
    ∀ (u v : List Char), noWsRun (u ++ v) = true → noWsRun u = true := by
  intro u
  induction u with
  | nil => intro v _; rfl
  | cons c u' ih =>
    intro v h
    cases u' with
    | nil => rfl
    | cons d u'' =>
      simp only [List.cons_append, noWsRun, Bool.and_eq_true] at h ⊢
      exact ⟨h.1, by simpa using ih v (by simpa using h.2)⟩

theorem dropTrailingWs_noWsRun {l : List Char} (h : noWsRun l = true) :
    noWsRun (App.dropTrailingWs l) = true := by
  obtain ⟨t, ht⟩ := dropTrailingWs_prefix l
  exact noWsRun_append_left _ t (by rw [← ht]; exact h)

theorem dropTrailingWs_headNotWs {l : List Char}
    (h : headNotWs l = true) : headNotWs (App.dropTrailingWs l) = true := by
  obtain ⟨t, ht⟩ := dropTrailingWs_prefix l
  cases hd : App.dropTrailingWs l with
  | nil => rfl
  | cons e t' =>
    rw [hd] at ht
    rw [ht] at h
    simpa [headNotWs] using h

theorem dropTrailingWs_idem :
    ∀ l : List Char, App.dropTrailingWs (App.dropTrailingWs l) =
      App.dropTrailingWs l := by
  intro l
  induction l with
  | nil => rfl
  | cons c rest ih =>
    cases h : App.dropTrailingWs rest with
    | nil =>
      by_cases hc : isPySpace c
      · simp [App.dropTrailingWs, h, hc]
      · simp [App.dropTrailingWs, h, hc]
    | cons d r =>
      rw [h] at ih
      have hstep : App.dropTrailingWs (c :: rest) = c :: d :: r := by
        simp [App.dropTrailingWs, h]
      have hunfold : App.dropTrailingWs (c :: d :: r)
          = match App.dropTrailingWs (d :: r) with
            | [] => if isPySpace c then [] else [c]
            | e :: r' => c :: e :: r' := rfl
      rw [hstep, hunfold, ih]

theorem pyStrip_noWsRun {l : List Char} (h : noWsRun l = true) :
    noWsRun (App.pyStrip l) = true :=
  dropTrailingWs_noWsRun (dropWhile_noWsRun h)

theorem pyStrip_idem (l : List Char) :
    App.pyStrip (App.pyStrip l) = App.pyStrip l := by
  unfold App.pyStrip
  rw [dropWhile_eq_self_of_headNotWs
    (dropTrailingWs_headNotWs (dropWhile_headNotWs l))]
  exact dropTrailingWs_idem _

theorem collapseGo_mem : ∀ (n : Nat) (l : List Char), l.length ≤ n →
    ∀ (b : Bool) (c : Char), c ∈ App.collapseGo b l → c ∈ l ∨ c = ' ' := by
  intro n
  induction n with
  | zero =>
    intro l hl
    have : l = [] := List.eq_nil_of_length_eq_zero (Nat.le_zero.mp hl)
    subst this
    intro b c hc
    simp [App.collapseGo] at hc
  | succ n ih =>
    intro l hl b c hc
    cases l with
    | nil => simp [App.collapseGo] at hc
    | cons x rest =>
      have hrest : rest.length ≤ n := by
        simpa [Nat.succ_le_succ_iff] using hl
      cases b with
      | true =>
        by_cases hx : isPySpace x
        · rw [show App.collapseGo true (x :: rest) = App.collapseGo true rest
              by simp [App.collapseGo, hx]] at hc
          rcases ih rest hrest true c hc with h | h
          · exact Or.inl (List.mem_cons_of_mem x h)
          · exact Or.inr h
        · rw [show App.collapseGo true (x :: rest)
              = x :: App.collapseGo false rest by simp [App.collapseGo, hx]] at hc
          rcases List.mem_cons.mp hc with h | h
          · exact Or.inl (by simp [h])
          · rcases ih rest hrest false c h with h' | h'
            · exact Or.inl (List.mem_cons_of_mem x h')
            · exact Or.inr h'
      | false =>
        cases rest with
        | nil =>
          simp only [App.collapseGo, List.mem_singleton] at hc
          exact Or.inl (by simp [hc])
        | cons d r =>
          have hr : r.length ≤ n := Nat.le_of_succ_le hrest
          have hdr : (d :: r).length ≤ n := hrest
          by_cases hx : isPySpace x
          · by_cases hd : isPySpace d
            · rw [show App.collapseGo false (x :: d :: r)
                  = ' ' :: App.collapseGo true r by
                    simp [App.collapseGo, hx, hd]] at hc
              rcases List.mem_cons.mp hc with h | h
              · exact Or.inr h
              · rcases ih r hr true c h with h' | h'
                · exact Or.inl (by simp [h'])
                · exact Or.inr h'
            · rw [show App.collapseGo false (x :: d :: r)
                  = x :: App.collapseGo false (d :: r) by
                    simp [App.collapseGo, hx, hd]] at hc
              rcases List.mem_cons.mp hc with h | h
              · exact Or.inl (by simp [h])
              · rcases ih (d :: r) hdr false c h with h' | h'
                · exact Or.inl (List.mem_cons_of_mem x h')
                · exact Or.inr h'
          · rw [show App.collapseGo false (x :: d :: r)
                = x :: App.collapseGo false (d :: r) by
                  simp [App.collapseGo, hx]] at hc
            rcases List.mem_cons.mp hc with h | h
            · exact Or.inl (by simp [h])
            · rcases ih (d :: r) hdr false c h with h' | h'
              · exact Or.inl (List.mem_cons_of_mem x h')
              · exact Or.inr h'

theorem mem_dropWhile {c : Char} {l : List Char}
    (h : c ∈ l.dropWhile isPySpace) : c ∈ l := by
  induction l with
  | nil => simp at h
  | cons x rest ih =>
    by_cases hx : isPySpace x
    · rw [show (x :: rest).dropWhile isPySpace = rest.dropWhile isPySpace
        by simp [List.dropWhile, hx]] at h
      exact List.mem_cons_of_mem x (ih h)
    · rw [show (x :: rest).dropWhile isPySpace = x :: rest
        by simp [List.dropWhile, hx]] at h
      exact h

theorem mem_dropTrailingWs {c : Char} {l : List Char}
    (h : c ∈ App.dropTrailingWs l) : c ∈ l := by
  obtain ⟨t, ht⟩ := dropTrailingWs_prefix l
  rw [ht]
  exact List.mem_append_left t h

theorem mem_pyStrip {c : Char} {l : List Char}
    (h : c ∈ App.pyStrip l) : c ∈ l :=
  mem_dropWhile (mem_dropTrailingWs h)

/-- `app.py`'s first substitution fixes strings without its pattern characters. -/
theorem app_subMarks_eq_self :
    ∀ l : List Char, (∀ c ∈ l, specialChar c = false) →
      App.subMarks l = l := by
  intro l
  induction l with
  | nil => intro _; rfl
  | cons c rest ih =>
    intro h
    have hc := h c (List.mem_cons_self c rest)
    simp only [specialChar, isQuoteBracket, Bool.or_eq_false_iff,
      decide_eq_false_iff_not] at hc
    obtain ⟨⟨⟨⟨hstar, hund⟩, htil⟩, htick⟩, -⟩ := hc
    cases rest with
    | nil => simp [App.subMarks, htick]
    | cons d rest' =>
      have hrest := ih (fun x hx => h x (List.mem_cons_of_mem c hx))
      simp [App.subMarks, hstar, hund, htil, htick, hrest]

/--
C5 counterexample: neither sanitizer is idempotent. Re-sanitizing
`generic-teacher.py`'s output for "1. cat" appends a second period, and
`app.py`'s character removals can create a fresh `**` pair that the second
pass then deletes.
-/
theorem c5_sanitizer_not_idempotent :
    Gen.clean_text_for_audio (Gen.clean_text_for_audio "1. cat") ≠
      Gen.clean_text_for_audio "1. cat" ∧
    App.clean_text_for_audio (App.clean_text_for_audio "*(*") ≠
      App.clean_text_for_audio "*(*" := by
  constructor
  · intro h
    rw [(by rfl : Gen.clean_text_for_audio "1. cat" = "1. cat."),
      (by rfl : Gen.clean_text_for_audio "1. cat." = "1. cat..")] at h
    simp at h
  · intro h
    rw [(by rfl : App.clean_text_for_audio "*(*" = "**"),
      (by rfl : App.clean_text_for_audio "**" = "")] at h
    simp at h

/--
C5 amended: the sanitizers are not idempotent in general (see the
counterexamples above), but `app.py`'s sanitizer is idempotent on every
text containing none of the characters it removes
(`*`, `_`, `~`, backtick, quotes and brackets): on such text the only
work is whitespace collapsing and stripping, and both are stable under a
second pass.
-/
theorem c5_app_sanitizer_idempotent_on_plain :
    ∀ t : String, (∀ c ∈ t.data, specialChar c = false) →
      App.clean_text_for_audio (App.clean_text_for_audio t) =
        App.clean_text_for_audio t := by
  intro t h
  have hfilter : ∀ l : List Char, (∀ c ∈ l, specialChar c = false) →
      l.filter (fun c => !(isQuoteBracket c)) = l := by
    intro l hl
    refine List.filter_eq_self.mpr (fun c hc => ?_)
    have := hl c hc
    simp only [specialChar, Bool.or_eq_false_iff] at this
    simp [this.2]
  have hnoRun : noWsRun (App.collapseWs t.data) = true :=
    (collapseGo_noWsRun t.data.length t.data (Nat.le_refl _)).2
  have hmemY : ∀ c ∈ App.pyStrip (App.collapseWs t.data),
      specialChar c = false := by
    intro c hc
    rcases collapseGo_mem t.data.length t.data (Nat.le_refl _) false c
        (mem_pyStrip hc) with h' | h'
    · exact h c h'
    · subst h'; rfl
  unfold App.clean_text_for_audio
  rw [app_subMarks_eq_self t.data h, hfilter t.data h]
  rw [show (String.mk (App.pyStrip (App.collapseWs t.data))).data
      = App.pyStrip (App.collapseWs t.data) from rfl]
  rw [app_subMarks_eq_self _ hmemY, hfilter _ hmemY]
  rw [show App.collapseWs (App.pyStrip (App.collapseWs t.data))
      = App.pyStrip (App.collapseWs t.data) from
    collapseGo_false_eq_self _ (pyStrip_noWsRun hnoRun)]
  rw [pyStrip_idem]

/-- Concrete instance of the amended C5 on plain text. -/
theorem c5_app_sanitizer_idempotent_on_plain_witness :
    (∀ c ∈ ("hello  world\n\ncat" : String).data, specialChar c = false) ∧
    App.clean_text_for_audio (App.clean_text_for_audio "hello  world\n\ncat") =
      App.clean_text_for_audio "hello  world\n\ncat" :=
  ⟨by decide, c5_app_sanitizer_idempotent_on_plain "hello  world\n\ncat" (by decide)⟩

end Teacher
